import Mathlib

/-!
Verification of the uptime-watchdog metrics/scoring engine.

The definitions below are a shallow embedding of the program's core logic
(src/main.py): the percentile estimator, the scorer/grader, the probe
executor's outcome classification, target registration, and the status
aggregator.  Python floats are modelled as exact rationals (all constants
appearing in the program and in the claims are exactly representable and
all comparisons involved are robust to the float/rational gap), Python
`None` as `Option`, and the SQLite tables as in-memory lists.
-/

namespace Watchdog

/-- Python `int()` truncation toward zero, on a rational. -/
def pyTrunc (q : ℚ) : ℤ := if 0 ≤ q then ⌊q⌋ else ⌈q⌉

/-- Round a rational to the nearest integer, ties to even
(the rounding used by Python's built-in `round`). -/
def roundHalfEven (q : ℚ) : ℤ :=
  if q - ⌊q⌋ < 1/2 then ⌊q⌋
  else if 1/2 < q - ⌊q⌋ then ⌊q⌋ + 1
  else if ⌊q⌋ % 2 = 0 then ⌊q⌋ else ⌊q⌋ + 1

/-- Python `round(x, n)` for `n ≥ 0` decimal digits. -/
def pyRound (q : ℚ) (n : ℕ) : ℚ := (roundHalfEven (q * 10 ^ n) : ℚ) / 10 ^ n

/-- `percentile(values, p)` from src/main.py lines 118-129: `None` on an
empty list; otherwise sort ascending, take the real rank
`k = (n - 1) * p / 100`, and return `values_sorted[int(k)]` when
`floor k = ceil k`, else the linear interpolation
`values_sorted[f] * (c - k) + values_sorted[c] * (k - f)`. -/
def percentile (values : List ℚ) (p : ℚ) : Option ℚ :=
  if values = [] then none
  else
    let values_sorted := List.insertionSort (· ≤ ·) values
    let k : ℚ := ((values_sorted.length : ℚ) - 1) * (p / 100)
    let f : ℤ := ⌊k⌋
    let c : ℤ := ⌈k⌉
    if f = c then some (values_sorted.getD (pyTrunc k).toNat 0)
    else
      let d0 := values_sorted.getD f.toNat 0 * ((c : ℚ) - k)
      let d1 := values_sorted.getD c.toNat 0 * (k - (f : ℚ))
      some (d0 + d1)

/-- The Percentile Estimator algorithm as worded in the specification
(§4.1), for a non-empty sample list: sort ascending; `k = (n-1) * p/100`;
`f = floor k`; `c = ceil k`; if `f = c` return `sorted[k]`, otherwise
`sorted[f]*(c-k) + sorted[c]*(k-f)`.  Kept separate from `percentile`
(which is translated from the code) so the two can be compared. -/
def percentileSpec (samples : List ℚ) (p : ℚ) : ℚ :=
  let sorted := List.insertionSort (· ≤ ·) samples
  let k : ℚ := ((samples.length : ℚ) - 1) * (p / 100)
  let f : ℤ := ⌊k⌋
  let c : ℤ := ⌈k⌉
  if f = c then sorted.getD f.toNat 0
  else sorted.getD f.toNat 0 * ((c : ℚ) - k) + sorted.getD c.toNat 0 * (k - (f : ℚ))

/-- `uptime_score` of src/main.py line 132: `max(0.0, min(100.0, uptime_pct))`. -/
def uptime_score (uptime_pct : ℚ) : ℚ := max 0 (min 100 uptime_pct)

/-- `latency_score` of src/main.py lines 133-141: 0 when `p95_ms` is `None`;
100 when `p95_ms ≤ 300`; 0 when `p95_ms ≥ 3000`; otherwise
`100 * (3000 - p95_ms) / (3000 - 300)`. -/
def latency_score : Option ℚ → ℚ
  | none => 0
  | some p95_ms =>
    if p95_ms ≤ 300 then 100
    else if 3000 ≤ p95_ms then 0
    else 100 * (3000 - p95_ms) / (3000 - 300)

/-- The grade ladder of src/main.py lines 143-164: thresholds checked
highest-first with `score >= threshold`, first match wins. -/
def grade_of (score : ℚ) : String :=
  if 97 ≤ score then "A+"
  else if 93 ≤ score then "A"
  else if 90 ≤ score then "A-"
  else if 87 ≤ score then "B+"
  else if 83 ≤ score then "B"
  else if 80 ≤ score then "B-"
  else if 77 ≤ score then "C+"
  else if 73 ≤ score then "C"
  else if 70 ≤ score then "C-"
  else if 60 ≤ score then "D"
  else "F"

/-- `score_and_grade(uptime_pct, p95_ms)` from src/main.py lines 131-165:
`score = 0.7 * uptime_score + 0.3 * latency_score`, then the grade ladder. -/
def score_and_grade (uptime_pct : ℚ) (p95_ms : Option ℚ) : ℚ × String :=
  let score := 7/10 * uptime_score uptime_pct + 3/10 * latency_score p95_ms
  (score, grade_of score)

/-- The outcome of the single `client.get` call inside `check_once`:
either the request completed with a status code and a measured elapsed
time, or it raised an exception (connection failure, timeout, DNS failure,
protocol error, ...) carrying a message. -/
inductive ProbeOutcome where
  | completed (sc : ℤ) (ms : ℚ)
  | exn (msg : String)
deriving DecidableEq

/-- One row of the `results` table (src/main.py lines 44-55), restricted to
the fields `check_once` writes (`check_id` and `ts` are not relevant to the
claims). -/
structure ProbeResult where
  ok : Bool
  status_code : Option ℤ
  elapsed_ms : Option ℚ
  error : Option String
deriving DecidableEq

/-- `insert_result` of src/main.py lines 100-107: one append to the
`results` table. -/
def insert_result (store : List ProbeResult) (r : ProbeResult) : List ProbeResult :=
  store ++ [r]

/-- Python's `str(e)[:300]` truncation of the exception message. -/
def truncate300 (s : String) : String := ⟨s.data.take 300⟩

/-- `check_once` of src/main.py lines 167-175, as a state transformer on
the results store.  A completed request is classified by
`ok = 200 <= status_code < 400` and recorded with its status code and
elapsed milliseconds and `error = None`; an exception is recorded as a
failure with no status code, no elapsed time, and the exception text
truncated to 300 characters.  Both arms perform exactly one
`insert_result`; the function is total, mirroring the `try/except` that
converts every exception into a written failure row. -/
def check_once (store : List ProbeResult) (outcome : ProbeOutcome) : List ProbeResult :=
  match outcome with
  | .completed sc ms =>
    let ok := decide (200 ≤ sc ∧ sc < 400)
    insert_result store { ok := ok, status_code := some sc, elapsed_ms := some ms, error := none }
  | .exn msg =>
    insert_result store { ok := false, status_code := none, elapsed_ms := none,
                          error := some (truncate300 msg) }

/-- The `checks` table (src/main.py lines 37-43): rows `(id, url)` in
insertion order, together with the next AUTOINCREMENT id. -/
structure Registry where
  nextId : ℕ
  checks : List (ℕ × String)
deriving DecidableEq

/-- The freshly initialised `checks` table (AUTOINCREMENT starts at 1). -/
def emptyRegistry : Registry := ⟨1, []⟩

/-- `insert_check(url)` of src/main.py lines 85-98.  The code attempts an
INSERT, which by the UNIQUE constraint on `url` fails exactly when the url
is already present, in which case the existing row's id is selected and
returned; otherwise the new row gets the next id.  Modelled as a lookup
followed by a conditional append. -/
def insert_check (reg : Registry) (url : String) : Registry × ℕ :=
  match reg.checks.find? (fun c => c.2 == url) with
  | some c => (reg, c.1)
  | none => (⟨reg.nextId + 1, reg.checks ++ [(reg.nextId, url)]⟩, reg.nextId)

/-- One fetched row of the `results` table as read back by `api_status`
(fields `ok`, `status_code`, `elapsed_ms`). -/
structure ResultRow where
  ok : Bool
  status_code : Option ℤ
  elapsed_ms : Option ℚ
deriving DecidableEq

/-- The `StatusItem` response model of src/main.py lines 67-74. -/
structure StatusItem where
  uptime_24h : ℚ
  uptime_7d : ℚ
  p95_ms_24h : Option ℚ
  total_samples_24h : ℕ
  grade : String
  score : ℚ
deriving DecidableEq

/-- The uptime computation of src/main.py lines 214-215:
`sum(rr.ok) / len(rs) * 100` on a non-empty window, `0` on an empty one. -/
def uptime_pct (rs : List ResultRow) : ℚ :=
  if rs = [] then 0 else ((rs.countP (·.ok)) : ℚ) / (rs.length : ℚ) * 100

/-- The latency extraction of src/main.py line 216:
`[rr.elapsed_ms for rr in rs if rr.ok and rr.elapsed_ms is not None]`. -/
def latencies_of (rs : List ResultRow) : List ℚ :=
  rs.filterMap (fun rr => if rr.ok then rr.elapsed_ms else none)

/-- The per-target body of `api_status` (src/main.py lines 211-229), given
the rows of the 24h window and of the 7d window: compute the two uptime
percentages, the p95 of the successful 24h latencies, score and grade from
the full-precision values, and round only the displayed numbers
(uptime to 2 decimal places, p95 and score to 1). -/
def status_item (r24 r7 : List ResultRow) : StatusItem :=
  let up24 := uptime_pct r24
  let up7 := uptime_pct r7
  let p95_24 := percentile (latencies_of r24) 95
  let sg := score_and_grade up24 p95_24
  { uptime_24h := pyRound up24 2
    uptime_7d := pyRound up7 2
    p95_ms_24h := p95_24.map (fun v => pyRound v 1)
    total_samples_24h := r24.length
    grade := sg.2
    score := pyRound sg.1 1 }

/-! ## Helper lemmas -/

instance : Std.Antisymm ((· : ℚ) ≤ ·) := ⟨fun h h2 => le_antisymm h h2⟩

/-- Evaluating `percentile` when the real rank is the natural number `m`. -/
lemma percentile_eval_int (l : List ℚ) (p : ℚ) (m : ℕ)
    (hne : l ≠ []) (hk : (((List.insertionSort (· ≤ ·) l).length : ℚ) - 1) * (p / 100) = m) :
    percentile l p = some ((List.insertionSort (· ≤ ·) l).getD m 0) := by
  unfold percentile
  rw [if_neg hne]
  simp only [hk]
  have hf : ⌊(m : ℚ)⌋ = (m : ℤ) := by exact_mod_cast Int.floor_natCast m
  have hc : ⌈(m : ℚ)⌉ = (m : ℤ) := by exact_mod_cast Int.ceil_natCast m
  rw [hf, hc, if_pos rfl]
  have ht : pyTrunc (m : ℚ) = (m : ℤ) := by
    unfold pyTrunc
    rw [if_pos (by positivity), hf]
  rw [ht]
  simp

/-- Evaluating `percentile` when the real rank is `m + t` with `0 < t < 1`. -/
lemma percentile_eval_frac (l : List ℚ) (p : ℚ) (m : ℕ) (t : ℚ)
    (hne : l ≠ []) (ht0 : 0 < t) (ht1 : t < 1)
    (hk : (((List.insertionSort (· ≤ ·) l).length : ℚ) - 1) * (p / 100) = m + t) :
    percentile l p = some ((List.insertionSort (· ≤ ·) l).getD m 0 * (1 - t)
                         + (List.insertionSort (· ≤ ·) l).getD (m + 1) 0 * t) := by
  unfold percentile
  rw [if_neg hne]
  simp only [hk]
  have hf : ⌊(m : ℚ) + t⌋ = (m : ℤ) := by
    rw [Int.floor_eq_iff]
    constructor
    · push_cast; linarith
    · push_cast; linarith
  have hc : ⌈(m : ℚ) + t⌉ = (m : ℤ) + 1 := by
    rw [Int.ceil_eq_iff]
    constructor
    · push_cast; linarith
    · push_cast; linarith
  rw [hf, hc, if_neg (by omega)]
  have h1 : ((m : ℤ)).toNat = m := Int.toNat_natCast m
  have h2 : ((m : ℤ) + 1).toNat = m + 1 := by omega
  rw [h1, h2]
  congr 1
  push_cast
  ring

/-- The head of a sorted permutation of `l` is `l.min?`. -/
lemma sorted_first_min (s l : List ℚ) (hp : List.Perm s l) (hs : s.Sorted (· ≤ ·))
    (hne : s ≠ []) : l.min? = some (s.getD 0 0) := by
  have hlen : 0 < s.length := List.length_pos.2 hne
  have hgetD : s.getD 0 0 = s.get ⟨0, hlen⟩ := List.getD_eq_getElem s 0 hlen
  rw [List.min?_eq_some_iff le_refl min_choice (fun _ _ _ => le_min_iff)]
  constructor
  · rw [hgetD]
    exact hp.subset (List.get_mem s 0 hlen)
  · intro b hb
    obtain ⟨i, hi⟩ := List.mem_iff_get.1 (hp.symm.subset hb)
    rw [← hi, hgetD]
    refine List.Sorted.rel_get_of_le hs ?_
    show (0 : ℕ) ≤ i.1
    exact Nat.zero_le _

/-- The last element of a sorted permutation of `l` is `l.max?`. -/
lemma sorted_last_max (s l : List ℚ) (hp : List.Perm s l) (hs : s.Sorted (· ≤ ·))
    (hne : s ≠ []) : l.max? = some (s.getD (s.length - 1) 0) := by
  have hlen : 0 < s.length := List.length_pos.2 hne
  have hlt : s.length - 1 < s.length := by omega
  have hgetD : s.getD (s.length - 1) 0 = s.get ⟨s.length - 1, hlt⟩ :=
    List.getD_eq_getElem s 0 hlt
  rw [List.max?_eq_some_iff le_refl max_choice (fun _ _ _ => max_le_iff)]
  constructor
  · rw [hgetD]
    exact hp.subset (List.get_mem s (s.length - 1) hlt)
  · intro b hb
    obtain ⟨i, hi⟩ := List.mem_iff_get.1 (hp.symm.subset hb)
    rw [← hi, hgetD]
    refine List.Sorted.rel_get_of_le hs ?_
    show i.1 ≤ s.length - 1
    have := i.isLt
    omega

lemma insertionSort_ne_nil (l : List ℚ) (hne : l ≠ []) :
    List.insertionSort (· ≤ ·) l ≠ [] := by
  intro hc
  have hp := List.perm_insertionSort (· ≤ ·) l
  rw [hc] at hp
  exact hne hp.symm.eq_nil

/-! ## Claims -/

/-- Claim C3: the Percentile Estimator sorts ascending, computes
`k = (n-1)*p/100`, `f = floor k`, `c = ceil k`, and returns `sorted[k]`
when `f = c` and `sorted[f]*(c-k) + sorted[c]*(k-f)` otherwise; on a
non-empty list `percentile l 0` is the minimum and `percentile l 100` the
maximum of the samples; on the empty list it returns `none` for every `p`. -/
theorem percentile_estimator_correct (l : List ℚ) (p : ℚ) :
    percentile ([] : List ℚ) p = none ∧
    (l ≠ [] → 0 ≤ p → p ≤ 100 → percentile l p = some (percentileSpec l p)) ∧
    (l ≠ [] → percentile l 0 = l.min?) ∧
    (l ≠ [] → percentile l 100 = l.max?) := by
  refine ⟨rfl, ?_, ?_, ?_⟩
  · intro hne hp0 _
    have h1 : (1 : ℚ) ≤ (l.length : ℚ) := by
      exact_mod_cast Nat.one_le_iff_ne_zero.2 (fun h => hne (List.length_eq_zero.1 h))
    have hk0 : 0 ≤ ((l.length : ℚ) - 1) * (p / 100) := by
      apply mul_nonneg
      · linarith
      · positivity
    have ht : pyTrunc (((l.length : ℚ) - 1) * (p / 100)) =
        ⌊((l.length : ℚ) - 1) * (p / 100)⌋ := by
      unfold pyTrunc
      rw [if_pos hk0]
    simp only [percentile, percentileSpec, List.length_insertionSort, if_neg hne, ht]
    split
    · rfl
    · rfl
  · intro hne
    have hs := List.sorted_insertionSort (· ≤ ·) l
    have hp := List.perm_insertionSort (· ≤ ·) l
    have hne2 := insertionSort_ne_nil l hne
    rw [percentile_eval_int l 0 0 hne (by norm_num),
      sorted_first_min (List.insertionSort (· ≤ ·) l) l hp hs hne2]
  · intro hne
    have hs := List.sorted_insertionSort (· ≤ ·) l
    have hp := List.perm_insertionSort (· ≤ ·) l
    have hne2 := insertionSort_ne_nil l hne
    have hn : 1 ≤ (List.insertionSort (· ≤ ·) l).length :=
      Nat.one_le_iff_ne_zero.2 (fun h => hne2 (List.length_eq_zero.1 h))
    rw [percentile_eval_int l 100 ((List.insertionSort (· ≤ ·) l).length - 1) hne
        (by rw [Nat.cast_sub hn]; norm_num),
      sorted_last_max (List.insertionSort (· ≤ ·) l) l hp hs hne2]

/-- Witness for C3 at concrete inputs. -/
theorem percentile_estimator_correct_witness :
    percentile ([] : List ℚ) 50 = none ∧
    percentile [3, 1, 2] 50 = some (percentileSpec [3, 1, 2] 50) ∧
    percentile [3, 1, 2] 0 = [3, 1, 2].min? ∧
    percentile [3, 1, 2] 100 = [3, 1, 2].max? :=
  ⟨(percentile_estimator_correct [3, 1, 2] 50).1,
   (percentile_estimator_correct [3, 1, 2] 50).2.1 (by simp) (by norm_num) (by norm_num),
   (percentile_estimator_correct [3, 1, 2] 0).2.2.1 (by simp),
   (percentile_estimator_correct [3, 1, 2] 100).2.2.2 (by simp)⟩

lemma score_fst (u : ℚ) (p : Option ℚ) :
    (score_and_grade u p).1 = 7/10 * uptime_score u + 3/10 * latency_score p := rfl

lemma score_snd (u : ℚ) (p : Option ℚ) :
    (score_and_grade u p).2 = grade_of (7/10 * uptime_score u + 3/10 * latency_score p) := rfl

lemma uptime_score_nonneg (u : ℚ) : 0 ≤ uptime_score u := le_max_left 0 _

lemma uptime_score_le (u : ℚ) : uptime_score u ≤ 100 :=
  max_le (by norm_num) (min_le_left _ _)

lemma latency_score_closed_form (v : ℚ) :
    latency_score (some v) = max 0 (min 100 (100 * (3000 - v) / (3000 - 300))) := by
  have hd : (0 : ℚ) < 3000 - 300 := by norm_num
  simp only [latency_score]
  split_ifs with h1 h2
  · have hx : (100 : ℚ) ≤ 100 * (3000 - v) / (3000 - 300) := by
      rw [le_div_iff₀ hd]; linarith
    rw [min_eq_left hx, max_eq_right (by norm_num : (0 : ℚ) ≤ 100)]
  · have hx : 100 * (3000 - v) / (3000 - 300) ≤ 0 :=
      div_nonpos_of_nonpos_of_nonneg (by linarith) (le_of_lt hd)
    rw [min_eq_right (le_trans hx (by norm_num)), max_eq_left hx]
  · have hx0 : (0 : ℚ) ≤ 100 * (3000 - v) / (3000 - 300) :=
      div_nonneg (by linarith) (le_of_lt hd)
    have hx1 : 100 * (3000 - v) / (3000 - 300) ≤ 100 := by
      rw [div_le_iff₀ hd]; linarith
    rw [min_eq_right hx1, max_eq_right hx0]

lemma latency_score_nonneg (p : Option ℚ) : 0 ≤ latency_score p := by
  cases p with
  | none => simp [latency_score]
  | some v =>
    rw [latency_score_closed_form]
    exact le_max_left 0 _

lemma latency_score_le (p : Option ℚ) : latency_score p ≤ 100 := by
  cases p with
  | none => simp [latency_score]
  | some v =>
    rw [latency_score_closed_form]
    exact max_le (by norm_num) (min_le_left _ _)

lemma latency_score_antitone (l1 l2 : ℚ) (h : l1 ≤ l2) :
    latency_score (some l2) ≤ latency_score (some l1) := by
  rw [latency_score_closed_form, latency_score_closed_form]
  have hd : (0 : ℚ) < 3000 - 300 := by norm_num
  refine max_le_max le_rfl (min_le_min le_rfl ?_)
  apply div_le_div_of_nonneg_right ?_ hd.le
  linarith

/-- Claim C4: the specified scorer point values and closed-at-the-lower-edge
grade boundaries: `score(100, 300) = (100.0, "A+")`, `score(0, None) =
(0.0, "F")`, `score(95, 3000) = (66.5, "D")`, a score of exactly 97.0
grades "A+" and 96.99 grades "A". -/
theorem scorer_point_values :
    score_and_grade 100 (some 300) = (100, "A+") ∧
    score_and_grade 0 none = (0, "F") ∧
    score_and_grade 95 (some 3000) = (133/2, "D") ∧
    grade_of 97 = "A+" ∧
    grade_of (9699/100) = "A" := by
  refine ⟨?_, ?_, ?_, ?_, ?_⟩ <;>
    norm_num [score_and_grade, uptime_score, latency_score, grade_of, max_def, min_def,
      Prod.ext_iff]

/-- Claim C5: for a fixed optional p95 latency the composite score is
non-decreasing in the uptime percentage, and for a fixed uptime percentage
it is non-increasing in the p95 latency. -/
theorem scorer_monotone :
    (∀ (p95 : Option ℚ) (u1 u2 : ℚ), u1 ≤ u2 →
      (score_and_grade u1 p95).1 ≤ (score_and_grade u2 p95).1) ∧
    (∀ (u l1 l2 : ℚ), l1 ≤ l2 →
      (score_and_grade u (some l2)).1 ≤ (score_and_grade u (some l1)).1) := by
  constructor
  · intro p95 u1 u2 h
    rw [score_fst, score_fst]
    have hm : max 0 (min 100 u1) ≤ max 0 (min 100 u2) :=
      max_le_max le_rfl (min_le_min le_rfl h)
    have hm2 : uptime_score u1 ≤ uptime_score u2 := hm
    linarith
  · intro u l1 l2 h
    rw [score_fst, score_fst]
    have hm := latency_score_antitone l1 l2 h
    linarith

/-- Witness for C5 at concrete inputs. -/
theorem scorer_monotone_witness :
    (score_and_grade 50 (some 400)).1 ≤ (score_and_grade 60 (some 400)).1 ∧
    (score_and_grade 50 (some 500)).1 ≤ (score_and_grade 50 (some 400)).1 :=
  ⟨scorer_monotone.1 (some 400) 50 60 (by norm_num),
   scorer_monotone.2 50 400 500 (by norm_num)⟩

lemma grade_of_mem (s : ℚ) :
    grade_of s ∈ ["A+", "A", "A-", "B+", "B", "B-", "C+", "C", "C-", "D", "F"] := by
  unfold grade_of
  split_ifs <;>
    repeat first
      | exact List.mem_cons_self _ _
      | apply List.mem_cons_of_mem

/-- Claim C10: for every uptime input (clamped internally) and every
optional p95 input, the score lies in [0, 100] and the grade is one of the
eleven letters. -/
theorem scorer_range_invariant (u : ℚ) (p : Option ℚ) :
    0 ≤ (score_and_grade u p).1 ∧ (score_and_grade u p).1 ≤ 100 ∧
    (score_and_grade u p).2 ∈ ["A+", "A", "A-", "B+", "B", "B-", "C+", "C", "C-", "D", "F"] := by
  have hu0 := uptime_score_nonneg u
  have hu1 := uptime_score_le u
  have hl0 := latency_score_nonneg p
  have hl1 := latency_score_le p
  refine ⟨?_, ?_, ?_⟩
  · rw [score_fst]; linarith
  · rw [score_fst]; linarith
  · rw [score_snd]
    exact grade_of_mem _

lemma truncate300_length_le (s : String) : (truncate300 s).length ≤ 300 := by
  show (s.data.take 300).length ≤ 300
  rw [List.length_take]
  exact min_le_left _ _

/-- Claim C1 (amended): a completed response is classified as a success
exactly when its status lies in [200, 400); the written record of a
completed request always carries the status code and the elapsed
milliseconds and no error text (even when the status makes it a failure);
an exception (connection failure, timeout, DNS failure, protocol error)
is recorded as a failure with no status code, no elapsed time and the
exception text truncated to at most 300 characters. -/
theorem check_once_classification (store : List ProbeResult) (sc : ℤ) (ms : ℚ) (e : String) :
    (200 ≤ sc ∧ sc < 400 →
      check_once store (.completed sc ms) =
        store ++ [⟨true, some sc, some ms, none⟩]) ∧
    (¬(200 ≤ sc ∧ sc < 400) →
      check_once store (.completed sc ms) =
        store ++ [⟨false, some sc, some ms, none⟩]) ∧
    check_once store (.exn e) = store ++ [⟨false, none, none, some (truncate300 e)⟩] ∧
    (truncate300 e).length ≤ 300 := by
  refine ⟨?_, ?_, rfl, truncate300_length_le e⟩
  · intro h
    simp [check_once, insert_result, h.1, h.2]
  · intro h
    simp only [check_once, insert_result]
    rw [decide_eq_false h]

/-- Witness for C1 at concrete inputs. -/
theorem check_once_classification_witness :
    check_once [] (.completed 204 50) = [⟨true, some 204, some 50, none⟩] ∧
    check_once [] (.completed 500 123) = [⟨false, some 500, some 123, none⟩] ∧
    check_once [] (.exn "boom") = [⟨false, none, none, some (truncate300 "boom")⟩] ∧
    (truncate300 "boom").length ≤ 300 :=
  ⟨(check_once_classification [] 204 50 "boom").1 (by norm_num),
   (check_once_classification [] 500 123 "boom").2.1 (by norm_num),
   (check_once_classification [] 500 123 "boom").2.2.1,
   (check_once_classification [] 500 123 "boom").2.2.2⟩

/-- Counterexample to C1 as stated: probing a target that completes with
HTTP status 500 (a failure, since 500 is outside [200, 400)) writes a
record that carries the status code and the elapsed milliseconds and no
error description — the opposite of the claimed failure shape. -/
theorem check_once_bad_status_counterexample :
    check_once [] (ProbeOutcome.completed 500 123) = [⟨false, some 500, some 123, none⟩] ∧
    ¬(∀ r ∈ check_once [] (ProbeOutcome.completed 500 123),
        r.ok = false → r.error ≠ none ∧ r.status_code = none ∧ r.elapsed_ms = none) := by
  have hc : check_once [] (ProbeOutcome.completed 500 123) =
      [⟨false, some 500, some 123, none⟩] := by
    simp only [check_once, insert_result]
    rw [decide_eq_false (by norm_num)]
    rfl
  refine ⟨hc, ?_⟩
  intro hall
  have hr := hall ⟨false, some 500, some 123, none⟩ (by rw [hc]; exact List.mem_singleton.2 rfl) rfl
  exact hr.1 rfl

/-- Claim C2: the Probe Executor is a total function of the probe outcome
(every outcome, exceptions included, is mapped to a written record rather
than propagated) and performs exactly one result write per invocation. -/
theorem check_once_never_raises_one_write (store : List ProbeResult) (o : ProbeOutcome) :
    (∃ r : ProbeResult, check_once store o = insert_result store r) ∧
    (check_once store o).length = store.length + 1 := by
  constructor
  · cases o with
    | completed sc ms => exact ⟨_, rfl⟩
    | exn msg => exact ⟨_, rfl⟩
  · cases o with
    | completed sc ms => simp [check_once, insert_result]
    | exn msg => simp [check_once, insert_result]

lemma insert_check_preserves_nodup (reg : Registry) (url : String)
    (h : (reg.checks.map Prod.snd).Nodup) :
    (((insert_check reg url).1).checks.map Prod.snd).Nodup := by
  unfold insert_check
  cases hf : reg.checks.find? (fun c => c.2 == url) with
  | some c => simpa using h
  | none =>
    simp only [List.map_append]
    refine List.Nodup.append h (List.nodup_singleton url) ?_
    intro a ha hb
    simp only [List.map_cons, List.map_nil, List.mem_singleton] at hb
    subst hb
    obtain ⟨c, hc, hceq⟩ := List.mem_map.1 ha
    have hfa := List.find?_eq_none.1 hf c hc
    simp only [beq_iff_eq] at hfa
    exact hfa hceq

lemma foldl_insert_check_nodup (urls : List String) (reg : Registry)
    (h : (reg.checks.map Prod.snd).Nodup) :
    (((urls.foldl (fun r u => (insert_check r u).1) reg)).checks.map Prod.snd).Nodup := by
  induction urls generalizing reg with
  | nil => simpa using h
  | cons u t ih => exact ih _ (insert_check_preserves_nodup reg u h)

/-- Claim C8: target registration is idempotent by URL — registering a URL
a second time returns the same identity and leaves the registry unchanged
(no duplicate record), and after any sequence of registrations starting
from the empty registry every URL appears at most once. -/
theorem insert_check_idempotent :
    (∀ (reg : Registry) (url : String),
      insert_check (insert_check reg url).1 url =
        ((insert_check reg url).1, (insert_check reg url).2)) ∧
    (∀ urls : List String,
      ((urls.foldl (fun r u => (insert_check r u).1) emptyRegistry).checks.map Prod.snd).Nodup) := by
  constructor
  · intro reg url
    unfold insert_check
    cases hf : reg.checks.find? (fun c => c.2 == url) with
    | some c => simp [hf]
    | none =>
      simp only [hf, List.find?_append]
      have hone : List.find? (fun c => c.2 == url) [(reg.nextId, url)] =
          some (reg.nextId, url) := by
        simp [List.find?]
      simp [hf, hone]
  · intro urls
    exact foldl_insert_check_nodup urls emptyRegistry (by simp [emptyRegistry])

lemma roundHalfEven_eval_lo (q : ℚ) (z : ℤ) (h1 : (z : ℚ) ≤ q) (h2 : q - z < 1/2) :
    roundHalfEven q = z := by
  have hf : ⌊q⌋ = z := by
    rw [Int.floor_eq_iff]
    exact ⟨h1, by linarith⟩
  unfold roundHalfEven
  rw [hf, if_pos (by linarith)]

lemma roundHalfEven_eval_hi (q : ℚ) (z : ℤ) (h1 : 1/2 < q - z) (h2 : q < z + 1) :
    roundHalfEven q = z + 1 := by
  have hf : ⌊q⌋ = z := by
    rw [Int.floor_eq_iff]
    exact ⟨by linarith, by linarith⟩
  unfold roundHalfEven
  rw [hf, if_neg (by linarith), if_pos (by linarith)]

lemma pyRound_zero (n : ℕ) : pyRound 0 n = 0 := by
  unfold pyRound
  rw [zero_mul, roundHalfEven_eval_lo 0 0 (by norm_num) (by norm_num)]
  norm_num

lemma uptime_pct_formula (rs : List ResultRow) :
    uptime_pct rs =
      if rs.length = 0 then 0 else 100 * ((rs.countP (·.ok)) : ℚ) / (rs.length : ℚ) := by
  unfold uptime_pct
  by_cases h : rs = []
  · rw [if_pos h, if_pos (by rw [h]; rfl)]
  · rw [if_neg h, if_neg (fun hc => h (List.length_eq_zero.1 hc))]
    ring

lemma latencies_of_eq_filter (rs : List ResultRow) :
    latencies_of rs = (rs.filter (·.ok)).filterMap (·.elapsed_ms) := by
  induction rs with
  | nil => rfl
  | cons rr t ih =>
    by_cases h : rr.ok
    · simp [latencies_of, List.filter_cons, List.filterMap_cons, h] at ih ⊢
      rw [← ih]
    · simp [latencies_of, List.filter_cons, List.filterMap_cons, h] at ih ⊢
      rw [← ih]

lemma score_and_grade_empty : score_and_grade 0 none = (0, "F") := by
  norm_num [score_and_grade, uptime_score, latency_score, grade_of, max_def, min_def,
    Prod.ext_iff]

/-- Claim C7: the Status Aggregator computes windowed uptime as 100 times
the successful-result count over the total count (0 on an empty window),
computes p95 from the elapsed times of successful 24h results only,
always produces a snapshot, and on zero stored history yields uptime 0 for
both windows, no p95, sample count 0 and grade "F". -/
theorem status_aggregator_correct (r24 r7 : List ResultRow) :
    ((status_item r24 r7).uptime_24h =
      pyRound (if r24.length = 0 then 0
               else 100 * ((r24.countP (·.ok)) : ℚ) / (r24.length : ℚ)) 2) ∧
    ((status_item r24 r7).uptime_7d =
      pyRound (if r7.length = 0 then 0
               else 100 * ((r7.countP (·.ok)) : ℚ) / (r7.length : ℚ)) 2) ∧
    ((status_item r24 r7).p95_ms_24h =
      (percentile ((r24.filter (·.ok)).filterMap (·.elapsed_ms)) 95).map
        (fun v => pyRound v 1)) ∧
    (status_item r24 r7).total_samples_24h = r24.length ∧
    status_item [] [] = ⟨0, 0, none, 0, "F", 0⟩ := by
  refine ⟨?_, ?_, ?_, rfl, ?_⟩
  · show pyRound (uptime_pct r24) 2 = _
    rw [uptime_pct_formula]
  · show pyRound (uptime_pct r7) 2 = _
    rw [uptime_pct_formula]
  · show (percentile (latencies_of r24) 95).map (fun v => pyRound v 1) = _
    rw [latencies_of_eq_filter]
  · show StatusItem.mk (pyRound (uptime_pct []) 2) (pyRound (uptime_pct []) 2)
      ((percentile (latencies_of []) 95).map (fun v => pyRound v 1)) (List.length [])
      (score_and_grade (uptime_pct []) (percentile (latencies_of []) 95)).2
      (pyRound (score_and_grade (uptime_pct []) (percentile (latencies_of []) 95)).1 1) = _
    have h0 : uptime_pct [] = 0 := rfl
    have hp : percentile (latencies_of []) 95 = none := rfl
    rw [h0, hp, score_and_grade_empty, pyRound_zero, pyRound_zero]
    rfl

/-- Claim C6 (amended): in every StatusSnapshot the uptime percentages are
rounded to 2 decimal places and the p95 latency and the composite score to
1 decimal place, with rounding applied only at presentation time: the
grade is computed from the full-precision score and the p95 fed to the
scorer is the full-precision percentile. -/
theorem presentation_rounding (r24 r7 : List ResultRow) :
    (status_item r24 r7).uptime_24h = pyRound (uptime_pct r24) 2 ∧
    (status_item r24 r7).uptime_7d = pyRound (uptime_pct r7) 2 ∧
    (status_item r24 r7).p95_ms_24h =
      (percentile (latencies_of r24) 95).map (fun v => pyRound v 1) ∧
    (status_item r24 r7).score =
      pyRound (score_and_grade (uptime_pct r24) (percentile (latencies_of r24) 95)).1 1 ∧
    (status_item r24 r7).grade =
      (score_and_grade (uptime_pct r24) (percentile (latencies_of r24) 95)).2 :=
  ⟨rfl, rfl, rfl, rfl, rfl⟩

/-- Counterexample to C6 as stated: with a 24h window of three results of
which two succeeded, the raw uptime is 200/3 %; the snapshot field holds
it rounded to 2 decimal places (66.67), which differs from the claimed
1-decimal-place rounding (66.7). -/
theorem uptime_rounding_counterexample :
    (status_item [⟨true, some 200, some 100⟩, ⟨true, some 200, some 100⟩,
        ⟨false, none, none⟩] []).uptime_24h =
      pyRound (uptime_pct [⟨true, some 200, some 100⟩, ⟨true, some 200, some 100⟩,
        ⟨false, none, none⟩]) 2 ∧
    (status_item [⟨true, some 200, some 100⟩, ⟨true, some 200, some 100⟩,
        ⟨false, none, none⟩] []).uptime_24h ≠
      pyRound (uptime_pct [⟨true, some 200, some 100⟩, ⟨true, some 200, some 100⟩,
        ⟨false, none, none⟩]) 1 := by
  have h1 : uptime_pct [(⟨true, some 200, some 100⟩ : ResultRow), ⟨true, some 200, some 100⟩,
      ⟨false, none, none⟩] = 200/3 := by
    simp [uptime_pct, List.countP_cons, List.countP_nil]
    norm_num
  have h2 : pyRound (200/3 : ℚ) 2 = 6667/100 := by
    unfold pyRound
    rw [roundHalfEven_eval_hi (200/3 * 10 ^ 2) 6666 (by norm_num) (by norm_num)]
    norm_num
  have h3 : pyRound (200/3 : ℚ) 1 = 667/10 := by
    unfold pyRound
    rw [roundHalfEven_eval_hi (200/3 * 10 ^ 1) 666 (by norm_num) (by norm_num)]
    norm_num
  constructor
  · rfl
  · show pyRound (uptime_pct [⟨true, some 200, some 100⟩, ⟨true, some 200, some 100⟩,
        ⟨false, none, none⟩]) 2 ≠ _
    rw [h1, h2, h3]
    norm_num

end Watchdog
